import Mathlib

/-!
Verification of the `exllsm-neuron-segmentation` volume segmentation pipeline
(`volumeSegmentation.py`).  The orchestrator script is embedded as a pure
function over abstract external collaborators (model, n5 reader/writer,
scaling, tf batching glue), and the geometric tiling layer
(`tools.tilingStrategy`, whose source is not part of the snapshot) is
modelled from the specification's description of `UnetTiling3D` /
`AbsoluteCanvas`.  The hysteresis flood fill of `tools.postProcessing` is
likewise modelled from the specification.
-/

/-- Vectors of three integer coordinates (the pipeline works on 3-D volumes;
coordinates are plain integer vectors, boxes are half-open). -/
def Vec3 : Type := Fin 3 → ℤ

/-- A half-open axis-aligned box `[lo, hi)` in global coordinates. -/
structure Box3 where
  lo : Vec3
  hi : Vec3

/-- Membership of a point in a half-open box. -/
def Box3.mem (b : Box3) (p : Vec3) : Prop := ∀ i, b.lo i ≤ p i ∧ p i < b.hi i

namespace Tiling

/-- Ceiling division on naturals: the least `n` with `n * o ≥ L` (for `o > 0`). -/
def ceilDiv (L o : ℕ) : ℕ := (L + o - 1) / o

/-- Modelled from the spec: per axis, output windows are tiled with stride
`output_shape[i]` starting at `target.start[i]` while `start < target.end[i]`
(§4.2 step 1).  The number of windows on one axis. -/
def numTilesAxis (t0 t1 os : ℤ) : ℕ := ceilDiv (t1 - t0).toNat os.toNat

/-- Start of the `k`-th output window on one axis. -/
def outStart (t0 os : ℤ) (k : ℕ) : ℤ := t0 + (k : ℤ) * os

end Tiling

/-- Modelled from the spec: the `UnetTiling3D` plan parameters
(`tools.tilingStrategy.UnetTiling3D(image_shape, subvolume, input_shape,
output_shape)`, constructed at `volumeSegmentation.py:139-142`; the class
source is not in the snapshot).  `tLo, tHi` is the requested target region
(half-open), `image_shape` the global volume shape. -/
structure UnetTiling3D where
  image_shape : Vec3
  tLo : Vec3
  tHi : Vec3
  input_shape : Vec3
  output_shape : Vec3

namespace UnetTiling3D

/-- Number of tiles on axis `i`. -/
def nTilesAx (S : UnetTiling3D) (i : Fin 3) : ℕ :=
  Tiling.numTilesAxis (S.tLo i) (S.tHi i) (S.output_shape i)

/-- Total number of tiles (`len(tiler)`): tiles form a 3-D grid. -/
def tilerLen (S : UnetTiling3D) : ℕ := S.nTilesAx 0 * S.nTilesAx 1 * S.nTilesAx 2

/-- A tile index is a triple of per-axis grid positions in range. -/
def isTile (S : UnetTiling3D) (t : Fin 3 → ℕ) : Prop := ∀ i, t i < S.nTilesAx i

/-- Per-axis start of a tile's (nominal, unclipped) output window. -/
def outLo (S : UnetTiling3D) (t : Fin 3 → ℕ) (i : Fin 3) : ℤ :=
  Tiling.outStart (S.tLo i) (S.output_shape i) (t i)

/-- Modelled from the spec (§4.2 step 5): lower corner of
`valid_output_bbox = output_bbox ∩ target_region ∩ [0, global_shape)`. -/
def validLo (S : UnetTiling3D) (t : Fin 3 → ℕ) (i : Fin 3) : ℤ :=
  max (S.outLo t i) (max (S.tLo i) 0)

/-- Modelled from the spec (§4.2 step 5): upper corner of `valid_output_bbox`. -/
def validHi (S : UnetTiling3D) (t : Fin 3 → ℕ) (i : Fin 3) : ℤ :=
  min (S.outLo t i + S.output_shape i) (min (S.tHi i) (S.image_shape i))

/-- Membership of a point in a tile's `valid_output_bbox`. -/
def memValid (S : UnetTiling3D) (t : Fin 3 → ℕ) (p : Vec3) : Prop :=
  ∀ i, S.validLo t i ≤ p i ∧ p i < S.validHi t i

/-- Membership of a point in `target_region ∩ [0, global_shape)`. -/
def memTargetGlobal (S : UnetTiling3D) (p : Vec3) : Prop :=
  ∀ i, (S.tLo i ≤ p i ∧ p i < S.tHi i) ∧ (0 ≤ p i ∧ p i < S.image_shape i)

/-- The tile whose output window contains `p` (the per-axis grid position of
the window covering `p`). -/
def coverTile (S : UnetTiling3D) (p : Vec3) : Fin 3 → ℕ :=
  fun i => (p i - S.tLo i).toNat / (S.output_shape i).toNat

end UnetTiling3D

/-- The spec's worked example (§8): global 400³, target `[100,250)³`,
model input 220³, output 132³. -/
def exampleTiling : UnetTiling3D :=
  ⟨fun _ => 400, fun _ => 100, fun _ => 250, fun _ => 220, fun _ => 132⟩

/-- A dense 3-D array: a shape (the numpy `.shape` tuple, as integers, since
shapes here arise as differences of integer coordinates) together with the
stored values, indexed by local integer offsets. -/
structure Arr3 (β : Type) where
  shape : Vec3
  data : Vec3 → β

/-- The constant-zero array of a given shape (`np.zeros(shape=...)`,
`volumeSegmentation.py:193`). -/
def Arr3.zerosA (β : Type) [Zero β] (sh : Vec3) : Arr3 β := ⟨sh, fun _ => 0⟩

/-- Modelled from the spec (§3, §4.1): `tools.tilingStrategy.AbsoluteCanvas`
(its source is not in the snapshot) — an addressable window into an implicit
global volume: `(global_shape, area: bbox, backing array)`. -/
structure AbsoluteCanvas (β : Type) where
  image_shape : Vec3
  canvas_area : Box3
  image : Arr3 β

/-- The extent (per-axis size) of a box. -/
def Box3.extent (b : Box3) : Vec3 := fun i => b.hi i - b.lo i

/-- The canvas invariant of the spec (§3): backing array shape equals area
extent exactly. -/
def canvasInvariant {β : Type} (c : AbsoluteCanvas β) : Prop :=
  ∀ i, c.image.shape i = c.canvas_area.extent i

/-- Modelled from the spec (§4.3): `tools.tilingStrategy.UnetTiler3D`
(constructed at `volumeSegmentation.py:198`): a plan, an input canvas and an
output canvas (`mask`). -/
structure UnetTiler3D (β : Type) where
  tiling : UnetTiling3D
  canvas : AbsoluteCanvas β
  mask : AbsoluteCanvas β

namespace UnetTiling3D

/-- Modelled from the spec (§4.2): `margin[i] = (input_shape[i] −
output_shape[i]) / 2`, split leading/trailing per axis; the spec requires a
fixed deterministic odd rule but does not name it, so the model gives the
floor half to the leading side. -/
def marginLead (S : UnetTiling3D) (i : Fin 3) : ℤ :=
  ((S.input_shape i - S.output_shape i).toNat / 2 : ℕ)

/-- Trailing margin: the remainder of the context split. -/
def marginTrail (S : UnetTiling3D) (i : Fin 3) : ℤ :=
  (S.input_shape i - S.output_shape i) - S.marginLead i

/-- Modelled from the spec (§4.2 step 4): the union input bbox is the
componentwise min/max over all tiles' `input_bbox`.  Window starts grow with
the grid position on each axis, so the minimum is tile 0's input start and the
maximum is the last tile's input end; `getInputVolume` returns this box
(read at `volumeSegmentation.py:145`). -/
def getInputVolumeLo (S : UnetTiling3D) (i : Fin 3) : ℤ := S.tLo i - S.marginLead i

/-- Upper corner of the union input bbox (see `getInputVolumeLo`). -/
def getInputVolumeHi (S : UnetTiling3D) (i : Fin 3) : ℤ :=
  S.tLo i + (S.nTilesAx i : ℤ) * S.output_shape i + S.marginTrail i

/-- Modelled from the spec (§4.2 Errors): plan construction raises
`ConfigurationError` if `model_output_shape[i] > model_input_shape[i]` on some
axis, or the target region is empty or disjoint from the global volume. -/
def tilingOK (S : UnetTiling3D) : Bool :=
  decide ((∀ i, S.output_shape i ≤ S.input_shape i) ∧ (∀ i, S.tLo i < S.tHi i) ∧
    (∀ i, max (S.tLo i) 0 < min (S.tHi i) (S.image_shape i)))

end UnetTiling3D

/-- Error taxonomy of the spec (§7) plus `StopIteration` (raised by `next` on
an exhausted tf dataset iterator, `volumeSegmentation.py:224`) and opaque
failures of external collaborators. -/
inductive Err where
  | config
  | outOfRange
  | shapeErr
  | indexErr
  | stopIteration
  | external (n : ℕ)
deriving DecidableEq

/-- Modelled from the spec: plan construction with its `ConfigurationError`
check (the `UnetTiling3D.__init__` validation is not in the snapshot). -/
def mkTiling (S : UnetTiling3D) : Except Err UnetTiling3D :=
  if S.tilingOK then .ok S else .error .config

/-- The command-line arguments of `volumeSegmentation.py` that the
segmentation core consumes (`main`, lines 35-129); coordinate strings are
already parsed into integer vectors, float arguments are modelled as exact
rationals. -/
structure Args where
  start : Vec3
  finish : Vec3
  image_shape : Vec3
  model_input_shape : Vec3
  model_output_shape : Vec3
  scaling : Option ℚ
  with_post_processing : Bool
  as_binary_mask : Bool
  unet_batch_size : ℤ
  high_threshold : ℚ
  low_threshold : ℚ
  small_region_probability_threshold : ℚ
  small_region_size_threshold : ℤ

/-- The tiling plan parameters built by `main`
(`volumeSegmentation.py:132-142`). -/
def tspecOf (A : Args) : UnetTiling3D :=
  ⟨A.image_shape, A.start, A.finish, A.model_input_shape, A.model_output_shape⟩

/-- Observable effects of one orchestrator run, in program order. -/
inductive Ev (β : Type) where
  | readEv (lo hi : Vec3)
  | scaleEv (factor : ℚ)
  | predictEv
  | wslEv (idx : ℕ)
  | floodFillEv
  | removeSmallEv
  | writeBlockEv (lo hi : Vec3) (arr : Arr3 β)

/-- Classifier: is this a `writeSlice` event? -/
def Ev.isWsl {β : Type} : Ev β → Bool
  | .wslEv _ => true
  | _ => false

/-- Classifier: is this the bulk-read event? -/
def Ev.isRead {β : Type} : Ev β → Bool
  | .readEv _ _ => true
  | _ => false

/-- Classifier: is this the intensity-scaling event? -/
def Ev.isScale {β : Type} : Ev β → Bool
  | .scaleEv _ => true
  | _ => false

/-- Classifier: is this a model-prediction event? -/
def Ev.isPredict {β : Type} : Ev β → Bool
  | .predictEv => true
  | _ => false

/-- Classifier: is this the hysteresis flood-fill event? -/
def Ev.isFlood {β : Type} : Ev β → Bool
  | .floodFillEv => true
  | _ => false

/-- Classifier: is this the small-object-removal event? -/
def Ev.isRemove {β : Type} : Ev β → Bool
  | .removeSmallEv => true
  | _ => false

/-- Classifier: is this the final persistence write? -/
def Ev.isWriteBlock {β : Type} : Ev β → Bool
  | .writeBlockEv _ _ _ => true
  | _ => false

/-- The tile index carried by a `writeSlice` event, if any. -/
def Ev.wslIdx {β : Type} : Ev β → Option ℕ
  | .wslEv i => some i
  | _ => none

/-- Number of events in a trace matching a classifier. -/
def countEv {β : Type} (f : Ev β → Bool) (l : List (Ev β)) : ℕ := (l.filter f).length

/-- The external collaborators of the orchestrator (spec §6): n5 reader and
writer, intensity scaling, model loading and prediction, the tf batching glue
that turns the tiler's generator into batches, the tile stream's `writeSlice`,
and the two postprocessing passes.  `β` is the voxel value type, `α` the type
of one model batch, `τr` one raw predicted tile (with class axis), `τ` one
reduced tile window. -/
structure ExtC (β α τr τ : Type) where
  read_n5_block : Vec3 → Vec3 → Except Err (Arr3 β)
  calculateScalingFactor : Arr3 β → ℚ
  scaleImage : Arr3 β → ℚ → Arr3 β
  load_model : Except Err Unit
  predict : α → Except Err (List τr)
  reduceArgmax : τr → τ
  reduceSoftmax : τr → τ
  batchesOf : UnetTiler3D β → List α
  writeSlice : ℕ → τ → AbsoluteCanvas β → Except Err (AbsoluteCanvas β)
  clean_floodFill : Arr3 β → ℚ → ℚ → Except Err (Arr3 β)
  removeSmallObjects : Arr3 β → ℚ → ℤ → Except Err (Arr3 β)
  write_n5_block : Vec3 → Vec3 → Arr3 β → Except Err Unit

/-- Clipped lower corner of the bulk read: `unet_start = [max(0, d) for d in
input_volume_aabb[:3]]` (`volumeSegmentation.py:146`). -/
def unetStart (T : UnetTiling3D) : Vec3 := fun i => max 0 (T.getInputVolumeLo i)

/-- Clipped upper corner of the bulk read: `unet_end = [min(image_shape[i],
input_volume_aabb[i+3]) for i in range(3)]` (`volumeSegmentation.py:147-148`). -/
def unetEnd (T : UnetTiling3D) : Vec3 := fun i => min (T.image_shape i) (T.getInputVolumeHi i)

/-- The scaling factor used: the command-line value when supplied, otherwise
computed from the bulk-read image (`volumeSegmentation.py:156-164`). -/
def scalingFactorOf {β α τr τ : Type} (A : Args) (X : ExtC β α τr τ) (img : Arr3 β) : ℚ :=
  match A.scaling with
  | some s => s
  | none => X.calculateScalingFactor img

/-- The input `AbsoluteCanvas` built by `main` (`volumeSegmentation.py:187-189`):
area is the clipped union input box, backing is the scaled bulk-read image
(`img` was rebound to `scaleImage(img, scalingFactor)` at line 166). -/
def inputCanvasOf {β α τr τ : Type} (A : Args) (X : ExtC β α τr τ) (T : UnetTiling3D)
    (img0 : Arr3 β) : AbsoluteCanvas β :=
  ⟨A.image_shape, ⟨unetStart T, unetEnd T⟩, X.scaleImage img0 (scalingFactorOf A X img0)⟩

/-- The output `AbsoluteCanvas` built by `main` (`volumeSegmentation.py:192-196`):
zero-filled backing of shape `subvolume_shape = end − start` (line 133), area
the requested target region. -/
def outputCanvasInit (β : Type) [Zero β] (A : Args) : AbsoluteCanvas β :=
  ⟨A.image_shape, ⟨A.start, A.finish⟩, Arr3.zerosA β (fun i => A.finish i - A.start i)⟩

/-- The channel-axis reduction selected by `--as_binary_mask`
(`volumeSegmentation.py:228-233`): argmax over classes, or softmax restricted
to class channel 1. -/
def reduceFn {β α τr τ : Type} (A : Args) (X : ExtC β α τr τ) : τr → τ :=
  if A.as_binary_mask then X.reduceArgmax else X.reduceSoftmax

/-- The inner write loop over one predicted batch (`volumeSegmentation.py:236-238`):
`writeSlice(tile, batch[i]); tile += 1` for each slice of the batch. -/
def writeSeq {β τ : Type} (wsl : ℕ → τ → AbsoluteCanvas β → Except Err (AbsoluteCanvas β)) :
    ℕ → List τ → AbsoluteCanvas β → List (Ev β) × Except Err (AbsoluteCanvas β)
  | _, [], c => ([], .ok c)
  | t, d :: ds, c =>
    match wsl t d c with
    | .error e => ([.wslEv t], .error e)
    | .ok c' =>
      let r := writeSeq wsl (t + 1) ds c'
      (.wslEv t :: r.1, r.2)

/-- The prediction loop (`volumeSegmentation.py:223-240`): while `tile < len`,
take the next batch from the dataset iterator (exhaustion raises
`StopIteration`), predict it, reduce the class axis, and write each slice. -/
def segLoop {β α τr τ : Type} (pred : α → Except Err (List τr)) (f : τr → τ)
    (wsl : ℕ → τ → AbsoluteCanvas β → Except Err (AbsoluteCanvas β)) (len : ℕ) :
    List α → ℕ → AbsoluteCanvas β → List (Ev β) × Except Err (AbsoluteCanvas β)
  | [], tile, c => if tile < len then ([], .error .stopIteration) else ([], .ok c)
  | b :: rest, tile, c =>
    if tile < len then
      match pred b with
      | .error e => ([.predictEv], .error e)
      | .ok outs =>
        let outs2 := outs.map f
        match writeSeq wsl tile outs2 c with
        | (wevs, .error e) => (.predictEv :: wevs, .error e)
        | (wevs, .ok c') =>
          let r := segLoop pred f wsl len rest (tile + outs2.length) c'
          (.predictEv :: (wevs ++ r.1), r.2)
    else ([], .ok c)

/-- The optional global postprocessing (`volumeSegmentation.py:242-249`):
when `--with_post_processing` is set, hysteresis flood fill then small-object
removal, both replacing the output canvas backing (the Python functions mutate
`tiler.mask.image` in place, modelled as functional update). -/
def postStage {β α τr τ : Type} (A : Args) (X : ExtC β α τr τ) (c : AbsoluteCanvas β) :
    List (Ev β) × Except Err (AbsoluteCanvas β) :=
  if A.with_post_processing then
    match X.clean_floodFill c.image A.high_threshold A.low_threshold with
    | .error e => ([.floodFillEv], .error e)
    | .ok fimg =>
      match X.removeSmallObjects fimg A.small_region_probability_threshold
          A.small_region_size_threshold with
      | .error e => ([.floodFillEv, .removeSmallEv], .error e)
      | .ok rimg => ([.floodFillEv, .removeSmallEv], .ok { c with image := rimg })
  else ([], .ok c)

/-- Segmentation loop plus postprocessing, starting from the freshly built
canvases (`volumeSegmentation.py:183-249`). -/
def stageLoopAndPost {β α τr τ : Type} [Zero β] (A : Args) (X : ExtC β α τr τ)
    (T : UnetTiling3D) (img0 : Arr3 β) : List (Ev β) × Except Err (AbsoluteCanvas β) :=
  let tiler : UnetTiler3D β := ⟨T, inputCanvasOf A X T img0, outputCanvasInit β A⟩
  let L := segLoop X.predict (reduceFn A X) X.writeSlice T.tilerLen
    (X.batchesOf tiler) 0 tiler.mask
  match L.2 with
  | .error e => (L.1, .error e)
  | .ok c =>
    let P := postStage A X c
    (L.1 ++ P.1, P.2)

/-- Everything `main` does before the final persistence write
(`volumeSegmentation.py:132-249`): plan construction, the single bulk read of
the clipped union input box, intensity scaling, model loading, the prediction
loop, and optional postprocessing.  Every failure aborts the stage chain. -/
def prePersist {β α τr τ : Type} [Zero β] (A : Args) (X : ExtC β α τr τ) :
    List (Ev β) × Except Err (AbsoluteCanvas β) :=
  match mkTiling (tspecOf A) with
  | .error e => ([], .error e)
  | .ok T =>
    match X.read_n5_block (unetStart T) (unetEnd T) with
    | .error e => ([.readEv (unetStart T) (unetEnd T)], .error e)
    | .ok img0 =>
      let evs := [Ev.readEv (unetStart T) (unetEnd T),
        Ev.scaleEv (scalingFactorOf A X img0)]
      match X.load_model with
      | .error e => (evs, .error e)
      | .ok _ =>
        let r := stageLoopAndPost A X T img0
        (evs ++ r.1, r.2)

/-- The whole orchestrator `main` (`volumeSegmentation.py:32-257`; named `mainRun` here since Lean reserves `main` for executables): the
pre-persistence pipeline followed by the single `write_n5_block` of the output
canvas backing into the requested target region (lines 253-256). -/
def mainRun {β α τr τ : Type} [Zero β] (A : Args) (X : ExtC β α τr τ) :
    List (Ev β) × Except Err Unit :=
  match prePersist A X with
  | (evs, .error e) => (evs, .error e)
  | (evs, .ok c) =>
    (evs ++ [.writeBlockEv A.start A.finish c.image],
      X.write_n5_block A.start A.finish c.image)

/-- Softmax over a class vector, abstracted over the exponential: `tf.nn.softmax`
computes `e = exp` componentwise and normalises by the sum
(`volumeSegmentation.py:233`); the external exponential enters the model only
through its positivity. -/
def softmaxAt (e : ℚ → ℚ) {n : ℕ} (v : Fin n → ℚ) (j : Fin n) : ℚ :=
  e (v j) / ∑ i, e (v i)

/-- Embeds `np.argmax` over a class vector: first index attaining the maximum
(`volumeSegmentation.py:230`). -/
def argmaxFin {n : ℕ} (v : Fin (n + 1) → ℚ) : Fin (n + 1) :=
  (List.finRange (n + 1)).foldl (fun best j => if v best < v j then j else best) 0

/-- The channel-axis reduction of `volumeSegmentation.py:227-233`, applied to a
predicted batch viewed as a map from (batch and output-window) positions `ι` to
class vectors: argmax over classes when `as_binary_mask`, else softmax
restricted to class channel 1. -/
def reduceChannels {ι : Type} (asBinary : Bool) (e : ℚ → ℚ) {n : ℕ}
    (batch : ι → Fin (n + 2) → ℚ) : ι → ℚ :=
  if asBinary then fun p => ((argmaxFin (batch p) : ℕ) : ℚ)
  else fun p => softmaxAt e (batch p) 1

/-- A voxel position in an `a × b × c` grid. -/
abbrev Voxel (a b c : ℕ) := Fin a × Fin b × Fin c

/-- A 3-D probability volume. -/
abbrev Img3 (a b c : ℕ) := Voxel a b c → ℚ

/-- Six-connectivity: the two voxels differ by one along exactly one axis. -/
def adjacent6 {a b c : ℕ} (p q : Voxel a b c) : Bool :=
  decide (((p.1 : ℤ) - (q.1 : ℤ)).natAbs + ((p.2.1 : ℤ) - (q.2.1 : ℤ)).natAbs +
    ((p.2.2 : ℤ) - (q.2.2 : ℤ)).natAbs = 1)

/-- Modelled from the spec (§4.4): the flood-fill seeds are the voxels with
value at or above the high confidence threshold. -/
def ffSeeds {a b c : ℕ} (img : Img3 a b c) (high : ℚ) (p : Voxel a b c) : Bool :=
  decide (high ≤ img p)

/-- Modelled from the spec (§4.4): one growth step of the hysteresis region
growing — a voxel joins the region if its value is at or above the low
threshold and some 6-connected neighbour is already in the region. -/
def ffGrow {a b c : ℕ} (img : Img3 a b c) (low : ℚ) (R : Voxel a b c → Bool)
    (p : Voxel a b c) : Bool :=
  R p || (decide (low ≤ img p) && decide (∃ q, adjacent6 q p = true ∧ R q = true))

/-- The region reached after `n` growth steps from the seeds. -/
def ffReached {a b c : ℕ} (img : Img3 a b c) (high low : ℚ) : ℕ → Voxel a b c → Bool
  | 0 => ffSeeds img high
  | n + 1 => ffGrow img low (ffReached img high low n)

/-- Modelled from the spec: `tools.postProcessing.clean_floodFill(image,
high_confidence_threshold, low_confidence_threshold)` (its source is not in the
snapshot; called at `volumeSegmentation.py:244-246`): hysteresis flood fill —
grow the high-confidence seeds through 6-connected neighbours at or above the
low threshold, set every reached voxel to 1 and every other voxel to 0.
Iterating the growth step `a*b*c` times reaches the closure, since each step
either adds a voxel of the finite grid or is already stable. -/
def clean_floodFill {a b c : ℕ} (img : Img3 a b c) (high low : ℚ) : Img3 a b c :=
  fun p => if ffReached img high low (a * b * c) p then 1 else 0

/-- A 1-voxel volume holding the raw value 2 (model outputs are not clamped
before postprocessing). -/
def imgC7 : Img3 1 1 1 := fun _ => 2

-- ### Concrete runs used by witnesses and counterexamples ###

/-- Arguments for a 1-tile run over a 1³ volume, postprocessing enabled. -/
def argsOneTile : Args where
  start := fun _ => 0
  finish := fun _ => 1
  image_shape := fun _ => 1
  model_input_shape := fun _ => 1
  model_output_shape := fun _ => 1
  scaling := some 1
  with_post_processing := true
  as_binary_mask := false
  unet_batch_size := 1
  high_threshold := 1
  low_threshold := 0
  small_region_probability_threshold := 0
  small_region_size_threshold := 0

/-- The same run with postprocessing disabled. -/
def argsNoPost : Args := { argsOneTile with with_post_processing := false }

/-- A 2-tile run over a `2×1×1` volume. -/
def argsTwoTiles : Args :=
  { argsOneTile with finish := ![2, 1, 1], image_shape := ![2, 1, 1] }

/-- Collaborators for which every stage succeeds: the reader returns a zero
array of the queried extent, prediction yields one tile per batch. -/
def extAllOk : ExtC ℤ ℕ ℕ ℕ where
  read_n5_block := fun lo hi => .ok ⟨fun i => hi i - lo i, fun _ => 0⟩
  calculateScalingFactor := fun _ => 1
  scaleImage := fun a _ => a
  load_model := .ok ()
  predict := fun _ => .ok [0]
  reduceArgmax := id
  reduceSoftmax := id
  batchesOf := fun _ => [0]
  writeSlice := fun _ _ c => .ok c
  clean_floodFill := fun a _ _ => .ok a
  removeSmallObjects := fun a _ _ => .ok a
  write_n5_block := fun _ _ _ => .ok ()

/-- Collaborators whose model fails on the second batch, after the first
batch's tile has already been written. -/
def extPredictFail : ExtC ℤ ℕ ℕ ℕ :=
  { extAllOk with
    batchesOf := fun _ => [0, 1]
    predict := fun b => if b = 0 then .ok [0] else .error (.external 0) }

/-- The bulk-read result used by the scaling counterexample: a 1³ array of
ones. -/
def imgRead : Arr3 ℚ := ⟨fun _ => 1, fun _ => 1⟩

/-- Collaborators over rational voxels whose scaling multiplies by the factor
(the natural reading of `scaleImage`). -/
def extScale : ExtC ℚ ℕ ℕ ℕ where
  read_n5_block := fun _ _ => .ok imgRead
  calculateScalingFactor := fun _ => 1
  scaleImage := fun a f => ⟨a.shape, fun p => f * a.data p⟩
  load_model := .ok ()
  predict := fun _ => .ok [0]
  reduceArgmax := id
  reduceSoftmax := id
  batchesOf := fun _ => [0]
  writeSlice := fun _ _ c => .ok c
  clean_floodFill := fun a _ _ => .ok a
  removeSmallObjects := fun a _ _ => .ok a
  write_n5_block := fun _ _ _ => .ok ()

/-- A run whose command-line scaling factor is 2. -/
def argsScaled : Args := { argsOneTile with scaling := some 2 }

/-- A `writeSlice` collaborator that always succeeds (used to instantiate the
prediction-loop theorem). -/
def wslOk : ℕ → ℕ → AbsoluteCanvas ℤ → Except Err (AbsoluteCanvas ℤ) :=
  fun _ _ c => .ok c

-- ### Theorems ###

theorem Tiling.axis_lt_iff (t0 t1 os : ℤ) (hos : 0 < os) (k : ℕ) :
    k < Tiling.numTilesAxis t0 t1 os ↔ Tiling.outStart t0 os k < t1 := by
  unfold Tiling.numTilesAxis Tiling.ceilDiv Tiling.outStart
  have ho : 0 < os.toNat := by omega
  rw [Nat.lt_iff_add_one_le, Nat.le_div_iff_mul_le ho]
  have h2 : (k + 1) * os.toNat = k * os.toNat + os.toNat := by ring
  rw [h2]
  have h3 : (k : ℤ) * os = ((k * os.toNat : ℕ) : ℤ) := by
    push_cast
    rw [Int.toNat_of_nonneg (le_of_lt hos)]
  rw [h3]
  generalize k * os.toNat = m
  omega

theorem Tiling.axis_cover (t0 t1 os : ℤ) (hos : 0 < os) (a : ℤ) (h0 : t0 ≤ a) (h1 : a < t1) :
    Tiling.outStart t0 os ((a - t0).toNat / os.toNat) ≤ a ∧
    a < Tiling.outStart t0 os ((a - t0).toNat / os.toNat) + os ∧
    (a - t0).toNat / os.toNat < Tiling.numTilesAxis t0 t1 os := by
  have ho : 0 < os.toNat := by omega
  set d := (a - t0).toNat with hd
  set k := d / os.toNat with hk
  have hdm := Nat.div_add_mod d os.toNat
  have hmod : d % os.toNat < os.toNat := Nat.mod_lt _ ho
  have hcast : (k : ℤ) * os = ((k * os.toNat : ℕ) : ℤ) := by
    push_cast
    rw [Int.toNat_of_nonneg (le_of_lt hos)]
  have hwin : Tiling.outStart t0 os k ≤ a ∧ a < Tiling.outStart t0 os k + os := by
    unfold Tiling.outStart
    rw [hcast]
    have hmul : k * os.toNat = os.toNat * k := Nat.mul_comm _ _
    rw [hmul]
    generalize hg : os.toNat * k = m at hdm
    omega
  refine ⟨hwin.1, hwin.2, ?_⟩
  rw [Tiling.axis_lt_iff t0 t1 os hos k]
  exact lt_of_le_of_lt hwin.1 h1

theorem Tiling.axis_disjoint_lt (t0 os : ℤ) (hos : 0 < os) {k k' : ℕ} (hlt : k < k') (a : ℤ)
    (h : Tiling.outStart t0 os k ≤ a ∧ a < Tiling.outStart t0 os k + os)
    (h' : Tiling.outStart t0 os k' ≤ a ∧ a < Tiling.outStart t0 os k' + os) : False := by
  unfold Tiling.outStart at h h'
  have hstep : ((k : ℤ) + 1) * os ≤ (k' : ℤ) * os := by
    apply mul_le_mul_of_nonneg_right _ (le_of_lt hos)
    exact_mod_cast hlt
  nlinarith [h.1, h.2, h'.1, h'.2]

theorem Tiling.axis_disjoint (t0 os : ℤ) (hos : 0 < os) {k k' : ℕ} (hne : k ≠ k') (a : ℤ)
    (h : Tiling.outStart t0 os k ≤ a ∧ a < Tiling.outStart t0 os k + os)
    (h' : Tiling.outStart t0 os k' ≤ a ∧ a < Tiling.outStart t0 os k' + os) : False := by
  rcases Nat.lt_or_ge k k' with hlt | hge
  · exact Tiling.axis_disjoint_lt t0 os hos hlt a h h'
  · exact Tiling.axis_disjoint_lt t0 os hos (Nat.lt_of_le_of_ne hge (Ne.symm hne)) a h' h

/-- C1: for every valid plan (non-empty target region intersecting the global
volume, `model_output_shape[i] ≤ model_input_shape[i]`, and positive output
shape — required for the per-axis tiling loop to terminate at all), the union
of the tiles' `valid_output_bbox` regions equals exactly
`target_region ∩ [0, global_shape)`, and these regions are pairwise disjoint
across every pair of distinct tiles. -/
theorem valid_output_cover_and_disjoint (S : UnetTiling3D)
    (hos : ∀ i, 0 < S.output_shape i)
    (hio : ∀ i, S.output_shape i ≤ S.input_shape i)
    (hne : ∀ i, S.tLo i < S.tHi i)
    (hint : ∀ i, max (S.tLo i) 0 < min (S.tHi i) (S.image_shape i)) :
    (∀ p : Vec3, (∃ t, S.isTile t ∧ S.memValid t p) ↔ S.memTargetGlobal p) ∧
    (∀ t t', S.isTile t → S.isTile t' → t ≠ t' →
      ∀ p : Vec3, ¬(S.memValid t p ∧ S.memValid t' p)) := by
  constructor
  · intro p
    constructor
    · rintro ⟨t, _, hv⟩ i
      have h := hv i
      unfold UnetTiling3D.validLo UnetTiling3D.validHi at h
      omega
    · intro hp
      refine ⟨S.coverTile p, ?_, ?_⟩
      · intro i
        exact (Tiling.axis_cover _ _ _ (hos i) (p i) ((hp i).1.1) ((hp i).1.2)).2.2
      · intro i
        have hc := Tiling.axis_cover (S.tLo i) (S.tHi i) (S.output_shape i)
          (hos i) (p i) ((hp i).1.1) ((hp i).1.2)
        have hg := hp i
        unfold UnetTiling3D.validLo UnetTiling3D.validHi UnetTiling3D.outLo
        unfold UnetTiling3D.coverTile
        unfold UnetTiling3D.outLo at hc
        omega
  · intro t t' ht ht' htne p hboth
    obtain ⟨i, hi⟩ := Function.ne_iff.mp htne
    have h1 := hboth.1 i
    have h2 := hboth.2 i
    unfold UnetTiling3D.validLo UnetTiling3D.validHi at h1 h2
    apply Tiling.axis_disjoint (S.tLo i) (S.output_shape i) (hos i) hi (p i)
    · unfold UnetTiling3D.outLo at h1
      constructor <;> omega
    · unfold UnetTiling3D.outLo at h2
      constructor <;> omega

/-- Witness for C1 at the spec's worked example. -/
theorem valid_output_cover_and_disjoint_witness :
    (∀ i, 0 < exampleTiling.output_shape i) ∧
    ((∀ p : Vec3, (∃ t, exampleTiling.isTile t ∧ exampleTiling.memValid t p) ↔
        exampleTiling.memTargetGlobal p) ∧
      (∀ t t', exampleTiling.isTile t → exampleTiling.isTile t' → t ≠ t' →
        ∀ p : Vec3, ¬(exampleTiling.memValid t p ∧ exampleTiling.memValid t' p))) :=
  ⟨by decide, valid_output_cover_and_disjoint exampleTiling (by decide) (by decide)
    (by decide) (by decide)⟩

theorem countEv_append {β : Type} (f : Ev β → Bool) (l₁ l₂ : List (Ev β)) :
    countEv f (l₁ ++ l₂) = countEv f l₁ + countEv f l₂ := by
  simp [countEv, List.filter_append]

theorem countEv_eq_zero {β : Type} (f : Ev β → Bool) (l : List (Ev β))
    (h : ∀ e ∈ l, f e = false) : countEv f l = 0 := by
  unfold countEv
  rw [List.filter_eq_nil_iff.mpr]
  · rfl
  · intro a ha
    simp [h a ha]

theorem writeSeq_kinds {β τ : Type}
    (wsl : ℕ → τ → AbsoluteCanvas β → Except Err (AbsoluteCanvas β)) :
    ∀ (ds : List τ) (t : ℕ) (c : AbsoluteCanvas β),
      ∀ e ∈ (writeSeq wsl t ds c).1, e.isWsl = true := by
  intro ds
  induction ds with
  | nil => intro t c e he; simp [writeSeq] at he
  | cons d ds ih =>
    intro t c e he
    unfold writeSeq at he
    cases h : wsl t d c with
    | error e' =>
      rw [h] at he
      simp at he
      subst he
      rfl
    | ok c' =>
      rw [h] at he
      simp at he
      rcases he with he | he
      · subst he; rfl
      · exact ih (t + 1) c' e he

theorem segLoop_kinds {β α τr τ : Type} (pred : α → Except Err (List τr)) (f : τr → τ)
    (wsl : ℕ → τ → AbsoluteCanvas β → Except Err (AbsoluteCanvas β)) (len : ℕ) :
    ∀ (bs : List α) (tile : ℕ) (c : AbsoluteCanvas β),
      ∀ e ∈ (segLoop pred f wsl len bs tile c).1, (e.isPredict || e.isWsl) = true := by
  intro bs
  induction bs with
  | nil =>
    intro tile c e he
    unfold segLoop at he
    split at he <;> simp at he
  | cons b rest ih =>
    intro tile c e he
    unfold segLoop at he
    split at he
    · cases hp : pred b with
      | error e' =>
        rw [hp] at he
        simp at he
        subst he
        rfl
      | ok outs =>
        rw [hp] at he
        simp only at he
        cases hws : writeSeq wsl tile (outs.map f) c with
        | mk wevs r =>
          cases r with
          | error e' =>
            rw [hws] at he
            simp at he
            rcases he with he | he
            · subst he; rfl
            · have := writeSeq_kinds wsl (outs.map f) tile c e (by rw [hws]; exact he)
              simp [this]
          | ok c' =>
            rw [hws] at he
            simp at he
            rcases he with he | he | he
            · subst he; rfl
            · have := writeSeq_kinds wsl (outs.map f) tile c e (by rw [hws]; exact he)
              simp [this]
            · exact ih _ _ e he
    · simp at he

theorem postStage_kinds {β α τr τ : Type} (A : Args) (X : ExtC β α τr τ)
    (c : AbsoluteCanvas β) :
    ∀ e ∈ (postStage A X c).1, (e.isFlood || e.isRemove) = true := by
  intro e he
  unfold postStage at he
  split at he
  · cases hf : X.clean_floodFill c.image A.high_threshold A.low_threshold with
    | error e' =>
      rw [hf] at he
      simp at he
      subst he
      rfl
    | ok fimg =>
      rw [hf] at he
      simp only at he
      cases hr : X.removeSmallObjects fimg A.small_region_probability_threshold
          A.small_region_size_threshold with
      | error e' =>
        rw [hr] at he
        simp at he
        rcases he with he | he <;> (subst he; rfl)
      | ok rimg =>
        rw [hr] at he
        simp at he
        rcases he with he | he <;> (subst he; rfl)
  · simp at he

theorem stageLoopAndPost_kinds {β α τr τ : Type} [Zero β] (A : Args) (X : ExtC β α τr τ)
    (T : UnetTiling3D) (img0 : Arr3 β) :
    ∀ e ∈ (stageLoopAndPost A X T img0).1,
      (e.isPredict || e.isWsl || e.isFlood || e.isRemove) = true := by
  intro e he
  simp only [stageLoopAndPost] at he
  cases hr : (segLoop X.predict (reduceFn A X) X.writeSlice T.tilerLen
      (X.batchesOf ⟨T, inputCanvasOf A X T img0, outputCanvasInit β A⟩) 0
      (outputCanvasInit β A)).2 with
  | error e' =>
    rw [hr] at he
    simp only at he
    have := segLoop_kinds X.predict (reduceFn A X) X.writeSlice T.tilerLen _ _ _ e he
    rcases Bool.or_eq_true_iff.mp this with h | h <;> simp [h]
  | ok c =>
    rw [hr] at he
    simp only [List.mem_append] at he
    rcases he with he | he
    · have := segLoop_kinds X.predict (reduceFn A X) X.writeSlice T.tilerLen _ _ _ e he
      rcases Bool.or_eq_true_iff.mp this with h | h <;> simp [h]
    · have := postStage_kinds A X c e he
      rcases Bool.or_eq_true_iff.mp this with h | h <;> simp [h]

theorem Ev.kinds_inner {β : Type} (e : Ev β)
    (h : (e.isPredict || e.isWsl || e.isFlood || e.isRemove) = true) :
    e.isRead = false ∧ e.isScale = false ∧ e.isWriteBlock = false := by
  cases e <;> simp_all [Ev.isPredict, Ev.isWsl, Ev.isFlood, Ev.isRemove, Ev.isRead,
    Ev.isScale, Ev.isWriteBlock]

theorem prePersist_no_writeBlock {β α τr τ : Type} [Zero β] (A : Args) (X : ExtC β α τr τ) :
    countEv Ev.isWriteBlock (prePersist A X).1 = 0 := by
  apply countEv_eq_zero
  intro e he
  simp only [prePersist] at he
  cases hT : mkTiling (tspecOf A) with
  | error e' => rw [hT] at he; simp at he
  | ok T =>
    rw [hT] at he
    simp only at he
    cases hr : X.read_n5_block (unetStart T) (unetEnd T) with
    | error e' =>
      rw [hr] at he
      simp at he
      subst he
      rfl
    | ok img0 =>
      rw [hr] at he
      simp only at he
      cases hl : X.load_model with
      | error e' =>
        rw [hl] at he
        simp at he
        rcases he with he | he <;> (subst he; rfl)
      | ok u =>
        rw [hl] at he
        simp at he
        rcases he with he | he | he
        · subst he; rfl
        · subst he; rfl
        · exact (Ev.kinds_inner e (stageLoopAndPost_kinds A X T img0 e he)).2.2

/-- C4: before any tile is written, the output `AbsoluteCanvas` is created
zero-filled, with its area equal to the target region and its backing array's
shape equal to the target region's extent, satisfying the canvas invariant
(`volumeSegmentation.py:132-133, 192-196`; the prediction loop of
`stageLoopAndPost` starts from exactly this canvas). -/
theorem output_canvas_starts_zero_filled (β : Type) [Zero β] (A : Args) :
    canvasInvariant (outputCanvasInit β A) ∧
    (outputCanvasInit β A).image.data = (fun _ => (0 : β)) ∧
    (outputCanvasInit β A).canvas_area.lo = A.start ∧
    (outputCanvasInit β A).canvas_area.hi = A.finish ∧
    (∀ i, (outputCanvasInit β A).image.shape i = A.finish i - A.start i) :=
  ⟨fun _ => rfl, rfl, rfl, rfl, fun _ => rfl⟩

/-- C5: after the pre-persistence pipeline (prediction loop and
postprocessing) completes, the orchestrator performs exactly one persistence
write, passing the output canvas's backing array unchanged, with the bbox
equal to the requested target region (`volumeSegmentation.py:253-256`). -/
theorem persist_write_once {β α τr τ : Type} [Zero β] (A : Args) (X : ExtC β α τr τ)
    (evs : List (Ev β)) (c : AbsoluteCanvas β)
    (h : prePersist A X = (evs, .ok c)) :
    mainRun A X = (evs ++ [Ev.writeBlockEv A.start A.finish c.image],
      X.write_n5_block A.start A.finish c.image) ∧
    countEv Ev.isWriteBlock (mainRun A X).1 = 1 := by
  have h1 : mainRun A X = (evs ++ [Ev.writeBlockEv A.start A.finish c.image],
      X.write_n5_block A.start A.finish c.image) := by
    unfold mainRun
    rw [h]
  refine ⟨h1, ?_⟩
  rw [h1]
  simp only
  rw [countEv_append]
  have h0 : countEv Ev.isWriteBlock evs = 0 := by
    have h2 := prePersist_no_writeBlock A X
    rw [h] at h2
    exact h2
  rw [h0]
  rfl

/-- Witness for C5: the fully successful one-tile run. -/
theorem persist_write_once_witness :
    mainRun argsOneTile extAllOk =
      ((prePersist argsOneTile extAllOk).1 ++
        [Ev.writeBlockEv argsOneTile.start argsOneTile.finish
          (Arr3.zerosA ℤ (fun i => argsOneTile.finish i - argsOneTile.start i))],
      .ok ()) ∧
    countEv Ev.isWriteBlock (mainRun argsOneTile extAllOk).1 = 1 :=
  persist_write_once argsOneTile extAllOk _ _ rfl

/-- C6: every error raised during plan construction, the bulk read, model
loading, tile prediction, `writeSlice` or postprocessing propagates uncaught
out of the orchestrator (the same error is the run's result), the final
persistence write is never reached, and (second conjunct, a concrete run whose
model fails on its second batch after one tile was already written) the output
canvas may be left holding a mix of written and unwritten tiles. -/
theorem errors_propagate_no_persist {β α τr τ : Type} [Zero β] (A : Args)
    (X : ExtC β α τr τ) (evs : List (Ev β)) (e : Err)
    (h : prePersist A X = (evs, .error e)) :
    (mainRun A X = (evs, .error e) ∧ countEv Ev.isWriteBlock (mainRun A X).1 = 0) ∧
    (countEv Ev.isWsl (mainRun argsTwoTiles extPredictFail).1 = 1 ∧
      (mainRun argsTwoTiles extPredictFail).2 = .error (.external 0) ∧
      countEv Ev.isWriteBlock (mainRun argsTwoTiles extPredictFail).1 = 0) := by
  have h1 : mainRun A X = (evs, .error e) := by
    unfold mainRun
    rw [h]
  refine ⟨⟨h1, ?_⟩, by decide, rfl, by decide⟩
  rw [h1]
  have h2 := prePersist_no_writeBlock A X
  rw [h] at h2
  exact h2

/-- Witness for C6 at the concrete run that fails in its second prediction. -/
theorem errors_propagate_no_persist_witness :
    mainRun argsTwoTiles extPredictFail =
      ([Ev.readEv (unetStart (tspecOf argsTwoTiles)) (unetEnd (tspecOf argsTwoTiles)),
        Ev.scaleEv 1, Ev.predictEv, Ev.wslEv 0, Ev.predictEv], .error (.external 0)) ∧
    countEv Ev.isWriteBlock (mainRun argsTwoTiles extPredictFail).1 = 0 :=
  (errors_propagate_no_persist argsTwoTiles extPredictFail _ _ rfl).1

theorem countEv_cons {β : Type} (f : Ev β → Bool) (e : Ev β) (l : List (Ev β)) :
    countEv f (e :: l) = (if f e then 1 else 0) + countEv f l := by
  simp only [countEv, List.filter_cons]
  split <;> simp [Nat.add_comm]

theorem Ev.writeBlock_only {β : Type} (e : Ev β) (h : e.isWriteBlock = true) :
    e.isRead = false ∧ e.isScale = false ∧ e.isFlood = false ∧ e.isRemove = false := by
  cases e <;> simp_all [Ev.isWriteBlock, Ev.isRead, Ev.isScale, Ev.isFlood, Ev.isRemove]

theorem Ev.loop_not_post {β : Type} (e : Ev β) (h : (e.isPredict || e.isWsl) = true) :
    e.isFlood = false ∧ e.isRemove = false := by
  cases e <;> simp_all [Ev.isPredict, Ev.isWsl, Ev.isFlood, Ev.isRemove]

theorem mainRun_trace_ext {β α τr τ : Type} [Zero β] (A : Args) (X : ExtC β α τr τ) :
    ∃ ext, (mainRun A X).1 = (prePersist A X).1 ++ ext ∧
      ∀ e ∈ ext, e.isWriteBlock = true := by
  unfold mainRun
  cases hp : prePersist A X with
  | mk evs r =>
    cases r with
    | error e =>
      refine ⟨[], ?_, by simp⟩
      simp [hp]
    | ok c =>
      refine ⟨[Ev.writeBlockEv A.start A.finish c.image], ?_, ?_⟩
      · simp [hp]
      · intro e he
        simp at he
        subst he
        rfl

theorem prePersist_trace_read_ok {β α τr τ : Type} [Zero β] (A : Args) (X : ExtC β α τr τ)
    (T : UnetTiling3D) (img0 : Arr3 β)
    (hT : mkTiling (tspecOf A) = .ok T)
    (hr : X.read_n5_block (unetStart T) (unetEnd T) = .ok img0) :
    ∃ tail, (prePersist A X).1 =
      Ev.readEv (unetStart T) (unetEnd T) :: Ev.scaleEv (scalingFactorOf A X img0) :: tail ∧
      ∀ e ∈ tail, (e.isPredict || e.isWsl || e.isFlood || e.isRemove) = true := by
  simp only [prePersist, hT, hr]
  cases hl : X.load_model with
  | error e => exact ⟨[], rfl, by simp⟩
  | ok u =>
    refine ⟨(stageLoopAndPost A X T img0).1, rfl, ?_⟩
    exact stageLoopAndPost_kinds A X T img0

theorem prePersist_trace_cases {β α τr τ : Type} [Zero β] (A : Args) (X : ExtC β α τr τ)
    (T : UnetTiling3D) (hT : mkTiling (tspecOf A) = .ok T) :
    (prePersist A X).1 = [Ev.readEv (unetStart T) (unetEnd T)] ∨
    ∃ fac tail, (prePersist A X).1 =
        Ev.readEv (unetStart T) (unetEnd T) :: Ev.scaleEv fac :: tail ∧
        ∀ e ∈ tail, (e.isPredict || e.isWsl || e.isFlood || e.isRemove) = true := by
  cases hr : X.read_n5_block (unetStart T) (unetEnd T) with
  | error e =>
    left
    simp only [prePersist, hT, hr]
  | ok img0 =>
    right
    obtain ⟨tail, h1, h2⟩ := prePersist_trace_read_ok A X T img0 hT hr
    exact ⟨scalingFactorOf A X img0, tail, h1, h2⟩

/-- C2 (amended): in every run whose plan construction succeeds, the
orchestrator's trace begins with exactly one bulk read, over the union input
box clipped per axis to `[max(0, lo_i), min(global_shape_i, hi_i))`
(`volumeSegmentation.py:145-154`), and when the read succeeds the input
`AbsoluteCanvas` is constructed with that clipped box as its area and the
intensity-scaled read array as its backing; under the reader's and scaler's
shape contracts its backing shape equals its area extent. -/
theorem bulk_read_once_input_canvas {β α τr τ : Type} [Zero β] (A : Args)
    (X : ExtC β α τr τ) (T : UnetTiling3D) (hT : mkTiling (tspecOf A) = .ok T) :
    (∃ rest, (mainRun A X).1 = Ev.readEv (unetStart T) (unetEnd T) :: rest) ∧
    countEv Ev.isRead (mainRun A X).1 = 1 ∧
    (∀ i, unetStart T i = max 0 (T.getInputVolumeLo i) ∧
      unetEnd T i = min (T.image_shape i) (T.getInputVolumeHi i)) ∧
    (∀ img0, X.read_n5_block (unetStart T) (unetEnd T) = .ok img0 →
      (inputCanvasOf A X T img0).canvas_area.lo = unetStart T ∧
      (inputCanvasOf A X T img0).canvas_area.hi = unetEnd T ∧
      (inputCanvasOf A X T img0).image =
        X.scaleImage img0 (scalingFactorOf A X img0) ∧
      ((∀ i, img0.shape i = unetEnd T i - unetStart T i) →
        (∀ a f, (X.scaleImage a f).shape = a.shape) →
        canvasInvariant (inputCanvasOf A X T img0))) := by
  obtain ⟨ext, hext, hextk⟩ := mainRun_trace_ext A X
  have hext0 : countEv Ev.isRead ext = 0 :=
    countEv_eq_zero _ _ (fun e he => (Ev.writeBlock_only e (hextk e he)).1)
  rcases prePersist_trace_cases A X T hT with hc | ⟨fac, tail, hc, hck⟩
  · refine ⟨⟨ext, by rw [hext, hc]; rfl⟩, ?_, fun i => ⟨rfl, rfl⟩, ?_⟩
    · rw [hext, countEv_append, hc, hext0]
      rfl
    · intro img0 hr
      refine ⟨rfl, rfl, rfl, fun hsh hsc => ?_⟩
      intro i
      rw [show (inputCanvasOf A X T img0).image =
        X.scaleImage img0 (scalingFactorOf A X img0) from rfl, hsc]
      exact hsh i
  · refine ⟨⟨Ev.scaleEv fac :: tail ++ ext, by rw [hext, hc]; rfl⟩, ?_,
      fun i => ⟨rfl, rfl⟩, ?_⟩
    · rw [hext, countEv_append, hc, hext0, countEv_cons, countEv_cons]
      have htail : countEv Ev.isRead tail = 0 :=
        countEv_eq_zero _ _ (fun e he => (Ev.kinds_inner e (hck e he)).1)
      rw [htail]
      rfl
    · intro img0 hr
      refine ⟨rfl, rfl, rfl, fun hsh hsc => ?_⟩
      intro i
      rw [show (inputCanvasOf A X T img0).image =
        X.scaleImage img0 (scalingFactorOf A X img0) from rfl, hsc]
      exact hsh i

/-- Witness for C2 (amended) at the one-tile run. -/
theorem bulk_read_once_input_canvas_witness :
    (∃ rest, (mainRun argsOneTile extAllOk).1 =
      Ev.readEv (unetStart (tspecOf argsOneTile)) (unetEnd (tspecOf argsOneTile)) :: rest) ∧
    countEv Ev.isRead (mainRun argsOneTile extAllOk).1 = 1 :=
  ⟨(bulk_read_once_input_canvas argsOneTile extAllOk (tspecOf argsOneTile) rfl).1,
    (bulk_read_once_input_canvas argsOneTile extAllOk (tspecOf argsOneTile) rfl).2.1⟩

/-- Counterexample for C2 as stated: in the run `argsScaled`/`extScale` the
plan is valid and the bulk read returns `imgRead`, yet the input canvas's
backing array is not the array returned by the read — it is the scaled copy
(`img` is rebound to `scaleImage(img, scalingFactor)` at
`volumeSegmentation.py:166` before the canvas is built at lines 187-189). -/
theorem input_canvas_backing_not_read_array :
    mkTiling (tspecOf argsScaled) = .ok (tspecOf argsScaled) ∧
    extScale.read_n5_block (unetStart (tspecOf argsScaled))
      (unetEnd (tspecOf argsScaled)) = .ok imgRead ∧
    (inputCanvasOf argsScaled extScale (tspecOf argsScaled) imgRead).image.data
        (fun _ => 0) ≠ imgRead.data (fun _ => 0) := by
  refine ⟨rfl, rfl, ?_⟩
  show (2 : ℚ) * 1 ≠ 1
  norm_num

/-- C10: the intensity scaling uses the command-line factor when supplied and
otherwise the factor computed from the bulk-read image; `scaleImage` is
applied exactly once (one scaling event in the whole trace), before any tile
is presented to the model (it is the second trace event, after the bulk read,
and every prediction event comes later), and the input canvas is built from
the scaled image (`volumeSegmentation.py:156-166, 187-189`). -/
theorem scaling_once_before_model {β α τr τ : Type} [Zero β] (A : Args)
    (X : ExtC β α τr τ) (T : UnetTiling3D) (img0 : Arr3 β)
    (hT : mkTiling (tspecOf A) = .ok T)
    (hr : X.read_n5_block (unetStart T) (unetEnd T) = .ok img0) :
    (∃ tail, (mainRun A X).1 = Ev.readEv (unetStart T) (unetEnd T) ::
      Ev.scaleEv (scalingFactorOf A X img0) :: tail) ∧
    countEv Ev.isScale (mainRun A X).1 = 1 ∧
    (inputCanvasOf A X T img0).image = X.scaleImage img0 (scalingFactorOf A X img0) ∧
    (A.scaling = none → scalingFactorOf A X img0 = X.calculateScalingFactor img0) ∧
    (∀ s, A.scaling = some s → scalingFactorOf A X img0 = s) := by
  obtain ⟨ext, hext, hextk⟩ := mainRun_trace_ext A X
  obtain ⟨tail, hc, hck⟩ := prePersist_trace_read_ok A X T img0 hT hr
  refine ⟨⟨tail ++ ext, by rw [hext, hc]; rfl⟩, ?_, rfl, ?_, ?_⟩
  · rw [hext, countEv_append, hc, countEv_cons, countEv_cons]
    have htail : countEv Ev.isScale tail = 0 :=
      countEv_eq_zero _ _ (fun e he => (Ev.kinds_inner e (hck e he)).2.1)
    have hext0 : countEv Ev.isScale ext = 0 :=
      countEv_eq_zero _ _ (fun e he => (Ev.writeBlock_only e (hextk e he)).2.1)
    rw [htail, hext0]
    rfl
  · intro hnone
    unfold scalingFactorOf
    rw [hnone]
  · intro s hsome
    unfold scalingFactorOf
    rw [hsome]

/-- Witness for C10 at the one-tile run (whose scaling argument is 1). -/
theorem scaling_once_before_model_witness :
    countEv Ev.isScale (mainRun argsOneTile extAllOk).1 = 1 ∧
    scalingFactorOf argsOneTile extAllOk
      (Arr3.mk (fun i => unetEnd (tspecOf argsOneTile) i -
        unetStart (tspecOf argsOneTile) i) (fun _ => 0)) = 1 :=
  ⟨(scaling_once_before_model argsOneTile extAllOk (tspecOf argsOneTile) _ rfl rfl).2.1,
    (scaling_once_before_model argsOneTile extAllOk (tspecOf argsOneTile) _ rfl rfl).2.2.2.2
      1 rfl⟩

/-- Counterexample for C3 as stated: a complete, successful run
(`--with_post_processing` not set) in which the postprocessor is applied zero
times — the two passes are guarded by the flag at
`volumeSegmentation.py:243`, so they do not run in every run. -/
theorem postprocess_not_in_every_run :
    argsNoPost.with_post_processing = false ∧
    (mainRun argsNoPost extAllOk).2 = .ok () ∧
    countEv Ev.isFlood (mainRun argsNoPost extAllOk).1 = 0 ∧
    countEv Ev.isRemove (mainRun argsNoPost extAllOk).1 = 0 :=
  ⟨rfl, rfl, by decide, by decide⟩

/-- C3 (amended): in every run with `--with_post_processing` set whose stages
all succeed, the postprocessor is applied to the output canvas exactly once,
after the last `writeSlice` call (all `writeSlice` events lie in the loop
trace `evsL`, which precedes the two postprocessing events) and before the
persistence write (the final trace event), with the hysteresis flood fill pass
first and the small-object removal pass second, both replacing the output
canvas backing in turn — the persisted array is
`removeSmallObjects(clean_floodFill(c.image))` (`volumeSegmentation.py:242-256`). -/
theorem postprocess_once_ordered {β α τr τ : Type} [Zero β] (A : Args)
    (X : ExtC β α τr τ) (T : UnetTiling3D) (img0 : Arr3 β) (evsL : List (Ev β))
    (c : AbsoluteCanvas β) (fimg rimg : Arr3 β)
    (hpost : A.with_post_processing = true)
    (hT : mkTiling (tspecOf A) = .ok T)
    (hr : X.read_n5_block (unetStart T) (unetEnd T) = .ok img0)
    (hl : X.load_model = .ok ())
    (hloop : segLoop X.predict (reduceFn A X) X.writeSlice T.tilerLen
      (X.batchesOf ⟨T, inputCanvasOf A X T img0, outputCanvasInit β A⟩) 0
      (outputCanvasInit β A) = (evsL, .ok c))
    (hff : X.clean_floodFill c.image A.high_threshold A.low_threshold = .ok fimg)
    (hrs : X.removeSmallObjects fimg A.small_region_probability_threshold
      A.small_region_size_threshold = .ok rimg) :
    mainRun A X =
      (Ev.readEv (unetStart T) (unetEnd T) :: Ev.scaleEv (scalingFactorOf A X img0) ::
        (evsL ++ [Ev.floodFillEv, Ev.removeSmallEv,
          Ev.writeBlockEv A.start A.finish rimg]),
        X.write_n5_block A.start A.finish rimg) ∧
    countEv Ev.isFlood (mainRun A X).1 = 1 ∧
    countEv Ev.isRemove (mainRun A X).1 = 1 ∧
    (∀ e ∈ evsL, e.isFlood = false ∧ e.isRemove = false) := by
  have hpostS : postStage A X c = ([Ev.floodFillEv, Ev.removeSmallEv],
      .ok { c with image := rimg }) := by
    simp only [postStage, hpost, hff, hrs]
    rfl
  have hstage : stageLoopAndPost A X T img0 =
      (evsL ++ [Ev.floodFillEv, Ev.removeSmallEv], .ok { c with image := rimg }) := by
    simp only [stageLoopAndPost, hloop, hpostS]
  have hpre : prePersist A X =
      ([Ev.readEv (unetStart T) (unetEnd T),
        Ev.scaleEv (scalingFactorOf A X img0)] ++
        (evsL ++ [Ev.floodFillEv, Ev.removeSmallEv]), .ok { c with image := rimg }) := by
    simp only [prePersist, hT, hr, hl, hstage]
  have hmain : mainRun A X =
      (Ev.readEv (unetStart T) (unetEnd T) :: Ev.scaleEv (scalingFactorOf A X img0) ::
        (evsL ++ [Ev.floodFillEv, Ev.removeSmallEv,
          Ev.writeBlockEv A.start A.finish rimg]),
        X.write_n5_block A.start A.finish rimg) := by
    unfold mainRun
    rw [hpre]
    simp
  have hkind : ∀ e ∈ evsL, (e.isPredict || e.isWsl) = true := by
    intro e he
    have hk := segLoop_kinds X.predict (reduceFn A X) X.writeSlice T.tilerLen
      (X.batchesOf ⟨T, inputCanvasOf A X T img0, outputCanvasInit β A⟩) 0
      (outputCanvasInit β A) e
    rw [hloop] at hk
    exact hk he
  have hzf : countEv Ev.isFlood evsL = 0 :=
    countEv_eq_zero _ _ (fun e he => (Ev.loop_not_post e (hkind e he)).1)
  have hzr : countEv Ev.isRemove evsL = 0 :=
    countEv_eq_zero _ _ (fun e he => (Ev.loop_not_post e (hkind e he)).2)
  refine ⟨hmain, ?_, ?_, fun e he => Ev.loop_not_post e (hkind e he)⟩
  · rw [hmain]
    simp only
    rw [countEv_cons, countEv_cons, countEv_append, hzf, countEv_cons, countEv_cons,
      countEv_cons]
    rfl
  · rw [hmain]
    simp only
    rw [countEv_cons, countEv_cons, countEv_append, hzr, countEv_cons, countEv_cons,
      countEv_cons]
    rfl

/-- Witness for C3 (amended) at the fully successful one-tile run with
postprocessing enabled. -/
theorem postprocess_once_ordered_witness :
    argsOneTile.with_post_processing = true ∧
    countEv Ev.isFlood (mainRun argsOneTile extAllOk).1 = 1 ∧
    countEv Ev.isRemove (mainRun argsOneTile extAllOk).1 = 1 :=
  ⟨rfl,
    (postprocess_once_ordered argsOneTile extAllOk (tspecOf argsOneTile) _
      [Ev.predictEv, Ev.wslEv 0] (outputCanvasInit ℤ argsOneTile) _ _
      rfl rfl rfl rfl rfl rfl rfl).2.1,
    (postprocess_once_ordered argsOneTile extAllOk (tspecOf argsOneTile) _
      [Ev.predictEv, Ev.wslEv 0] (outputCanvasInit ℤ argsOneTile) _ _
      rfl rfl rfl rfl rfl rfl rfl).2.2.1⟩

theorem writeSeq_ok {β τ : Type}
    (wsl : ℕ → τ → AbsoluteCanvas β → Except Err (AbsoluteCanvas β))
    (hw : ∀ i d c, ∃ c', wsl i d c = .ok c') :
    ∀ (ds : List τ) (t : ℕ) (c : AbsoluteCanvas β),
      ∃ c', writeSeq wsl t ds c = ((List.range' t ds.length).map Ev.wslEv, .ok c') := by
  intro ds
  induction ds with
  | nil => intro t c; exact ⟨c, rfl⟩
  | cons d ds ih =>
    intro t c
    obtain ⟨c1, hc1⟩ := hw t d c
    obtain ⟨c2, hc2⟩ := ih (t + 1) c1
    refine ⟨c2, ?_⟩
    unfold writeSeq
    rw [hc1]
    simp only [hc2, List.length_cons, List.range'_succ, List.map_cons]

theorem segLoop_run {β α τr τ : Type} (pred : α → Except Err (List τr)) (f : τr → τ)
    (wsl : ℕ → τ → AbsoluteCanvas β → Except Err (AbsoluteCanvas β))
    (hw : ∀ i d c, ∃ c', wsl i d c = .ok c') (len : ℕ) :
    ∀ (bs : List α) (outss : List (List τr)),
      List.Forall₂ (fun b outs => pred b = .ok outs) bs outss →
      ∀ (s : ℕ) (c : AbsoluteCanvas β),
        s + (outss.map List.length).sum = len →
        (∃ c', (segLoop pred f wsl len bs s c).2 = .ok c') ∧
        (segLoop pred f wsl len bs s c).1.filterMap Ev.wslIdx =
          List.range' s ((outss.map List.length).sum) := by
  intro bs outss h
  induction h with
  | nil =>
    intro s c hsum
    simp only [List.map_nil, List.sum_nil] at hsum ⊢
    unfold segLoop
    rw [if_neg (by omega)]
    exact ⟨⟨c, rfl⟩, rfl⟩
  | @cons b outs bs' outss' hab htail ih =>
    intro s c hsum
    simp only [List.map_cons, List.sum_cons] at hsum ⊢
    by_cases hs : s < len
    · unfold segLoop
      rw [if_pos hs, hab]
      simp only
      obtain ⟨c1, hws⟩ := writeSeq_ok wsl hw (outs.map f) s c
      rw [hws]
      simp only [List.length_map]
      obtain ⟨⟨c', hc'⟩, hfm⟩ := ih (s + outs.length) c1 (by omega)
      refine ⟨⟨c', hc'⟩, ?_⟩
      simp only [List.filterMap_cons, Ev.wslIdx, List.filterMap_append, hfm,
        List.filterMap_map]
      have hcomp : List.filterMap (Ev.wslIdx ∘ @Ev.wslEv β) (List.range' s outs.length)
          = List.range' s outs.length := by
        have hfn : (Ev.wslIdx ∘ @Ev.wslEv β : ℕ → Option ℕ) = some := by
          funext x
          rfl
        rw [hfn, List.filterMap_some]
      rw [hcomp]
      have happ := List.range'_append s outs.length ((outss'.map List.length).sum) 1
      simp only [one_mul] at happ
      rw [happ, Nat.add_comm]
    · unfold segLoop
      rw [if_neg hs]
      have hz : outs.length + (outss'.map List.length).sum = 0 := by omega
      rw [hz]
      exact ⟨⟨c, rfl⟩, rfl⟩

theorem forall2_pred_len_sum {α τr : Type} (pred : α → Except Err (List τr))
    (inSize : α → ℕ) :
    ∀ (bs : List α) (outss : List (List τr)),
      List.Forall₂ (fun b outs => pred b = .ok outs ∧ outs.length = inSize b) bs outss →
      (outss.map List.length).sum = (bs.map inSize).sum := by
  intro bs outss h
  induction h with
  | nil => rfl
  | cons hb ht ih => simp [hb.2, ih]

/-- C9: for every run in which the tile generator yields exactly `len(tiler)`
input windows (the predicted batch sizes, each equal to its input batch size,
sum to `len`) and every `writeSlice` succeeds, the prediction loop of
`volumeSegmentation.py:216-240` terminates successfully, and `writeSlice` is
called exactly once for each tile index `0, 1, …, len − 1`, in strictly
increasing index order (the write events of the trace are exactly
`List.range len`). -/
theorem prediction_loop_writes_each_tile_once {β α τr τ : Type}
    (pred : α → Except Err (List τr)) (f : τr → τ)
    (wsl : ℕ → τ → AbsoluteCanvas β → Except Err (AbsoluteCanvas β))
    (inSize : α → ℕ) (bs : List α) (outss : List (List τr)) (len : ℕ)
    (c0 : AbsoluteCanvas β)
    (hw : ∀ i d c, ∃ c', wsl i d c = .ok c')
    (hps : List.Forall₂ (fun b outs => pred b = .ok outs ∧ outs.length = inSize b) bs outss)
    (hsum : (bs.map inSize).sum = len) :
    (∃ c', (segLoop pred f wsl len bs 0 c0).2 = .ok c') ∧
    (segLoop pred f wsl len bs 0 c0).1.filterMap Ev.wslIdx = List.range len := by
  have h1 : List.Forall₂ (fun b outs => pred b = .ok outs) bs outss :=
    hps.imp (fun a b hab => hab.1)
  have h2 : (outss.map List.length).sum = (bs.map inSize).sum :=
    forall2_pred_len_sum pred inSize bs outss hps
  obtain ⟨hok, hfm⟩ := segLoop_run pred f wsl hw len bs outss h1 0 c0
    (by rw [h2, hsum]; exact Nat.zero_add len)
  refine ⟨hok, ?_⟩
  rw [hfm, h2, hsum, List.range_eq_range']

/-- Witness for C9: two batches of sizes 1 and 2 covering three tiles. -/
theorem prediction_loop_writes_each_tile_once_witness :
    (∃ c', (segLoop (fun b : List ℕ => Except.ok b) id wslOk 3 [[5], [6, 7]] 0
      (outputCanvasInit ℤ argsOneTile)).2 = .ok c') ∧
    (segLoop (fun b : List ℕ => Except.ok b) id wslOk 3 [[5], [6, 7]] 0
      (outputCanvasInit ℤ argsOneTile)).1.filterMap Ev.wslIdx = List.range 3 :=
  prediction_loop_writes_each_tile_once (fun b => Except.ok b) id wslOk List.length
    [[5], [6, 7]] [[5], [6, 7]] 3 (outputCanvasInit ℤ argsOneTile)
    (fun _ _ c => ⟨c, rfl⟩)
    (List.Forall₂.cons ⟨rfl, rfl⟩ (List.Forall₂.cons ⟨rfl, rfl⟩ List.Forall₂.nil))
    rfl

theorem ffReached_ff {a b c : ℕ} (img : Img3 a b c) (h l : ℚ)
    (hh0 : 0 < h) (hh1 : h ≤ 1) (hl : 0 < l) (n : ℕ) :
    ∀ p, ffReached (clean_floodFill img h l) h l n p =
      ffReached img h l (a * b * c) p := by
  induction n with
  | zero =>
    intro p
    show ffSeeds (clean_floodFill img h l) h p = _
    unfold ffSeeds clean_floodFill
    cases hR : ffReached img h l (a * b * c) p with
    | true =>
      show decide (h ≤ (1 : ℚ)) = true
      simpa using hh1
    | false =>
      show decide (h ≤ (0 : ℚ)) = false
      simp only [decide_eq_false_iff_not, not_le]
      exact hh0
  | succ n ih =>
    intro p
    show ffGrow (clean_floodFill img h l) l (ffReached (clean_floodFill img h l) h l n) p = _
    unfold ffGrow
    simp only [ih]
    cases hR : ffReached img h l (a * b * c) p with
    | true => rw [Bool.true_or]
    | false =>
      rw [Bool.false_or]
      have hval : clean_floodFill img h l p = 0 := by
        unfold clean_floodFill
        rw [hR]
        rfl
      rw [hval]
      have hd : decide (l ≤ (0 : ℚ)) = false := by
        simp only [decide_eq_false_iff_not, not_le]
        exact hl
      rw [hd, Bool.false_and]

/-- Counterexample for C7 as stated: with thresholds `high = low = 2`, the
1-voxel volume holding the raw value 2 is flood-filled to 1 by one pass, but a
second pass finds no voxel `≥ 2` and zeroes it — applying `clean_floodFill`
twice does not equal applying it once for arbitrary threshold pairs. -/
theorem clean_floodFill_not_idempotent :
    clean_floodFill (clean_floodFill imgC7 2 2) 2 2 (0, 0, 0) ≠
      clean_floodFill imgC7 2 2 (0, 0, 0) := by decide

/-- C7 (amended): for every 3-D volume, the hysteresis flood fill is
idempotent whenever `0 < high_threshold ≤ 1` and `0 < low_threshold` — in
particular for the probability thresholds the tool uses (defaults 0.98/0.2).
After one pass the volume is 0/1-valued; the second pass then seeds exactly at
the 1-voxels and can grow only through 1-voxels, reproducing the same result. -/
theorem clean_floodFill_idempotent {a b c : ℕ} (img : Img3 a b c) (h l : ℚ)
    (hh0 : 0 < h) (hh1 : h ≤ 1) (hl : 0 < l) :
    clean_floodFill (clean_floodFill img h l) h l = clean_floodFill img h l := by
  funext p
  show (if ffReached (clean_floodFill img h l) h l (a * b * c) p then (1 : ℚ) else 0) = _
  rw [ffReached_ff img h l hh0 hh1 hl (a * b * c) p]
  rfl

/-- Witness for C7 (amended) with thresholds 1 and 1. -/
theorem clean_floodFill_idempotent_witness :
    (0 : ℚ) < 1 ∧ (1 : ℚ) ≤ 1 ∧
    clean_floodFill (clean_floodFill imgC7 1 1) 1 1 = clean_floodFill imgC7 1 1 :=
  ⟨one_pos, le_refl 1, clean_floodFill_idempotent imgC7 1 1 one_pos (le_refl 1) one_pos⟩

theorem argmax_foldl_le {n : ℕ} (v : Fin (n + 1) → ℚ) :
    ∀ (l : List (Fin (n + 1))) (b : Fin (n + 1)),
      v b ≤ v (l.foldl (fun best j => if v best < v j then j else best) b) ∧
      ∀ j ∈ l, v j ≤ v (l.foldl (fun best j => if v best < v j then j else best) b) := by
  intro l
  induction l with
  | nil => intro b; exact ⟨le_refl _, by simp⟩
  | cons a l ih =>
    intro b
    simp only [List.foldl_cons]
    obtain ⟨h1, h2⟩ := ih (if v b < v a then a else b)
    have hba : v b ≤ v (if v b < v a then a else b) ∧
        v a ≤ v (if v b < v a then a else b) := by
      by_cases hc : v b < v a
      · rw [if_pos hc]; exact ⟨le_of_lt hc, le_refl _⟩
      · rw [if_neg hc]; exact ⟨le_refl _, not_lt.mp hc⟩
    refine ⟨le_trans hba.1 h1, ?_⟩
    intro j hj
    rcases List.mem_cons.mp hj with hj | hj
    · subst hj; exact le_trans hba.2 h1
    · exact h2 j hj

/-- C8: the class-axis reduction applied to every predicted batch before
`writeSlice` (`volumeSegmentation.py:227-237`): with `--as_binary_mask` each
written value is the argmax over the last (class) axis — an index attaining
the maximum class score; otherwise it is the softmax over the last axis
restricted to class channel 1, and every written value lies in `[0, 1]` (for
any positive exponential).  The written window keeps the spatial index set `ι`
of the model output window unchanged. -/
theorem reduce_channels_argmax_softmax {ι : Type} (e : ℚ → ℚ) (he : ∀ x, 0 < e x)
    {n : ℕ} (batch : ι → Fin (n + 2) → ℚ) (asb : Bool) (p : ι) :
    (asb = true → reduceChannels asb e batch p = ((argmaxFin (batch p) : ℕ) : ℚ) ∧
      ∀ j, batch p j ≤ batch p (argmaxFin (batch p))) ∧
    (asb = false → reduceChannels asb e batch p = softmaxAt e (batch p) 1 ∧
      0 ≤ reduceChannels asb e batch p ∧ reduceChannels asb e batch p ≤ 1) := by
  constructor
  · intro ha
    subst ha
    refine ⟨rfl, ?_⟩
    intro j
    unfold argmaxFin
    exact (argmax_foldl_le (batch p) (List.finRange (n + 2)) 0).2 j (List.mem_finRange j)
  · intro ha
    subst ha
    refine ⟨rfl, ?_, ?_⟩
    · show (0 : ℚ) ≤ softmaxAt e (batch p) 1
      unfold softmaxAt
      apply div_nonneg (le_of_lt (he _))
      exact Finset.sum_nonneg (fun i _ => le_of_lt (he _))
    · show softmaxAt e (batch p) 1 ≤ 1
      unfold softmaxAt
      rw [div_le_one (Finset.sum_pos (fun i _ => he _) Finset.univ_nonempty)]
      exact Finset.single_le_sum (fun i _ => le_of_lt (he _)) (Finset.mem_univ 1)

/-- Witness for C8 with the constant positive exponential on a one-point
window with two classes. -/
theorem reduce_channels_argmax_softmax_witness :
    (∀ x : ℚ, 0 < (1 : ℚ)) ∧
    (0 ≤ reduceChannels false (fun _ => 1) (fun (_ : Unit) (_ : Fin 2) => (0 : ℚ)) () ∧
      reduceChannels false (fun _ => 1) (fun (_ : Unit) (_ : Fin 2) => (0 : ℚ)) () ≤ 1) :=
  ⟨fun _ => one_pos,
    ((reduce_channels_argmax_softmax (fun _ => 1) (fun _ => one_pos)
        (fun (_ : Unit) (_ : Fin 2) => (0 : ℚ)) false ()).2 rfl).2⟩
